import Mathlib

/-
Shallow embedding of src/server.js (a small Express + libsql payment backend).

Modelling conventions:
- JavaScript numbers are modelled as exact rationals, represented executably by
  the structure JsNum (integer numerator, natural denominator) so that every
  definition evaluates inside the kernel.  All JsNum values built by the model
  have a positive denominator.
- JSON body values that the code inspects dynamically (typeof checks and
  truthiness) are modelled by the inductive JsValue.
- The two SQL tables are modelled as Lean lists in insertion order (DB).  A
  route handler becomes a pure function from the request and the current DB to
  a response paired with the new DB; an error response leaves the DB unchanged,
  mirroring the fact that the handler returns before executing any INSERT or
  UPDATE.
- The HTTP error taxonomy of the spec maps ValidationError to code 400 and
  NotFoundError to code 404, exactly as the handlers do.
-/

/-- Exact rational value of a JavaScript number: num / den, with den intended
positive.  Executable stand-in for the IEEE doubles of the source. -/
structure JsNum where
  num : ℤ
  den : ℕ
deriving DecidableEq

/-- Product of two JsNum values. -/
def JsNum.mul (a b : JsNum) : JsNum := ⟨a.num * b.num, a.den * b.den⟩

/-- Difference of two JsNum values. -/
def JsNum.sub (a b : JsNum) : JsNum :=
  ⟨a.num * (b.den : ℤ) - b.num * (a.den : ℤ), a.den * b.den⟩

/-- Quotient of two JsNum values (garbage when b is zero, as in JS where it
would be an infinity; the model only divides by the literal 100). -/
def JsNum.div (a b : JsNum) : JsNum :=
  ⟨a.num * (b.den : ℤ) * b.num.sign, a.den * b.num.natAbs⟩

/-- Comparison a <= b, valid for positive denominators. -/
def JsNum.le (a b : JsNum) : Prop := a.num * (b.den : ℤ) ≤ b.num * (a.den : ℤ)

/-- Comparison a < b, valid for positive denominators. -/
def JsNum.lt (a b : JsNum) : Prop := a.num * (b.den : ℤ) < b.num * (a.den : ℤ)

instance (a b : JsNum) : Decidable (JsNum.le a b) := by
  unfold JsNum.le; infer_instance

instance (a b : JsNum) : Decidable (JsNum.lt a b) := by
  unfold JsNum.lt; infer_instance

/-- JsNum denoting the integer n. -/
def JsNum.ofNat (n : ℕ) : JsNum := ⟨n, 1⟩

/-- Whitespace characters trimmed by the JS String.prototype.trim of the
source (the common ECMAScript whitespace set). -/
def jsWhitespace (c : Char) : Bool :=
  c == ' ' || c == '\t' || c == '\n' || c == '\r' || c == '\x0b' ||
  c == '\x0c' || c == Char.ofNat 160 || c == Char.ofNat 65279

/-- Characters kept by the sanitizer regex class [a-zA-Z0-9@._-]
(src/server.js line 81). -/
def allowedChar (c : Char) : Bool :=
  c.isAlpha || c.isDigit || c == '@' || c == '.' || c == '_' || c == '-'

/-- str.trim() of the source, on the character list. -/
def jsTrim (l : List Char) : List Char :=
  ((l.dropWhile jsWhitespace).reverse.dropWhile jsWhitespace).reverse

/-- Dynamically typed JSON body value, as far as the source inspects it. -/
inductive JsValue where
  | str (s : String)
  | num (q : JsNum)
  | bool (b : Bool)
  | nul
  | undef
deriving DecidableEq

/-- sanitizeString of src/server.js lines 79-82: non-strings map to the empty
string; strings are trimmed and every character outside [a-zA-Z0-9@._-] is
removed. -/
def sanitizeString : JsValue → String
  | JsValue.str s => ⟨(jsTrim s.data).filter allowedChar⟩
  | _ => ""

/-- JS truthiness of the modelled values (empty string, 0, false, null and
undefined are falsy). -/
def jsTruthy : JsValue → Bool
  | JsValue.str s => !(s == "")
  | JsValue.num q => !(q.num == 0)
  | JsValue.bool b => b
  | JsValue.nul => false
  | JsValue.undef => false

/-- Numeric value of a list of decimal digit characters. -/
def digitsToNat (l : List Char) : ℕ :=
  l.foldl (fun a c => 10 * a + (c.toNat - 48)) 0

/-- Exponent part of a JS float literal after the letter e: an optional sign
followed by digits; without digits the exponent part is not consumed, so it
contributes 0. -/
def expPartVal (r : List Char) : ℤ :=
  let se : ℤ × List Char :=
    match r with
    | '-' :: r2 => (-1, r2)
    | '+' :: r2 => (1, r2)
    | _ => (1, r)
  let ed := se.2.takeWhile Char.isDigit
  if ed.isEmpty then 0 else se.1 * (digitsToNat ed : ℤ)

/-- parseFloat of the source on a string: leading whitespace skipped, then an
optional sign, decimal digits with an optional fraction and an optional
exponent; trailing garbage ignored; none models NaN. -/
def jsParseFloat (s : String) : Option JsNum :=
  let l0 := s.data.dropWhile jsWhitespace
  let sl : ℤ × List Char :=
    match l0 with
    | '-' :: r => (-1, r)
    | '+' :: r => (1, r)
    | _ => (1, l0)
  let ip := sl.2.takeWhile Char.isDigit
  let l2 := sl.2.dropWhile Char.isDigit
  let fl : List Char × List Char :=
    match l2 with
    | '.' :: r => (r.takeWhile Char.isDigit, r.dropWhile Char.isDigit)
    | _ => ([], l2)
  if ip.isEmpty && fl.1.isEmpty then none
  else
    let e := expPartVal (match fl.2 with
      | 'e' :: r => r
      | 'E' :: r => r
      | _ => ['x'])
    let baseNum : ℤ := sl.1 * (digitsToNat (ip ++ fl.1) : ℤ)
    let baseDen : ℕ := 10 ^ fl.1.length
    if 0 ≤ e then some ⟨baseNum * (10 : ℤ) ^ e.toNat, baseDen⟩
    else some ⟨baseNum, baseDen * 10 ^ e.natAbs⟩

/-- parseFloat applied to a dynamically typed value: numbers pass through,
strings are parsed, everything else stringifies to something unparseable. -/
def jsParseFloatV : JsValue → Option JsNum
  | JsValue.str s => jsParseFloat s
  | JsValue.num q => some q
  | _ => none

/-- Two-digit zero padding for the fractional part of toFixed. -/
def pad2 (n : ℕ) : String := if n < 10 then "0" ++ toString n else toString n

/-- Number.prototype.toFixed(2) of the source on the exact rational value:
sign extracted first, magnitude rounded to the nearest multiple of 1/100 with
ties away from zero, per the ECMAScript algorithm. -/
def jsToFixed2 (q : JsNum) : String :=
  let n := (q.num.natAbs * 200 + q.den) / (2 * q.den)
  (if q.num < 0 then "-" else "") ++ toString (n / 100) ++ "." ++ pad2 (n % 100)

/-- Number.prototype.toFixed(1), used for the displayed discount. -/
def jsToFixed1 (q : JsNum) : String :=
  let n := (q.num.natAbs * 20 + q.den) / (2 * q.den)
  (if q.num < 0 then "-" else "") ++ toString (n / 10) ++ "." ++ toString (n % 10)

/-- parseFloat(amount).toFixed(2) including the NaN case. -/
def fmtAmount2 : Option JsNum → String
  | none => "NaN"
  | some q => jsToFixed2 q

/-- Test of the phone regex of src/server.js line 198, anchored ten decimal
digits. -/
def phoneTest (s : String) : Bool :=
  s.data.length == 10 && s.data.all Char.isDigit

/-- Character class of the local part of the email regex (line 204). -/
def localChar (c : Char) : Bool :=
  c.isAlpha || c.isDigit || c == '.' || c == '_' || c == '-'

/-- Character class of the domain part of the email regex. -/
def domainChar (c : Char) : Bool :=
  c.isAlpha || c.isDigit || c == '.' || c == '-'

/-- Test of the email regex of src/server.js line 204.  An anchored match
decomposes the string at its unique at sign and at the last dot after it, so
the matcher splits there. -/
def emailTest (s : String) : Bool :=
  let loc := s.data.takeWhile (fun c => !(c == '@'))
  match s.data.dropWhile (fun c => !(c == '@')) with
  | [] => false
  | _ :: rest =>
    let tldRev := rest.reverse.takeWhile (fun c => !(c == '.'))
    match rest.reverse.dropWhile (fun c => !(c == '.')) with
    | [] => false
    | _ :: domRev =>
      !loc.isEmpty && loc.all localChar &&
      !domRev.isEmpty && domRev.all domainChar &&
      decide (2 ≤ tldRev.length) && tldRev.all Char.isAlpha

/-- Status whitelist of src/server.js lines 210 and 273. -/
def validStatuses : List String := ["pending", "success", "failed"]

/-- status.toLowerCase() of the source (ASCII lowering, which is all the
status strings exercise). -/
def jsToLower (s : String) : String := ⟨s.data.map Char.toLower⟩

/-- Case-insensitive status validation: validStatuses.includes(status.toLowerCase()). -/
def validStatus (s : String) : Bool := validStatuses.contains (jsToLower s)

/-- Row of the pricing table (id, basePrice REAL, discountPercentage REAL,
lastUpdated INTEGER). -/
structure PricingRow where
  id : ℕ
  basePrice : JsNum
  discountPercentage : JsNum
  lastUpdated : ℤ
deriving DecidableEq

/-- Row of the payments table.  amount is stored as the raw TEXT the client
sent; basePrice and discountPercentage snapshot the pricing row. -/
structure PaymentRow where
  id : ℕ
  fullName : String
  phone : String
  email : String
  paymentId : String
  orderId : String
  amount : String
  basePrice : JsNum
  discountPercentage : JsNum
  status : String
  date : ℤ
deriving DecidableEq

/-- The persistent store: both tables, rows in insertion order. -/
structure DB where
  pricing : List PricingRow
  payments : List PaymentRow
deriving DecidableEq

/-- JSON envelope of a handler outcome: HTTP code, success flag, message. -/
structure Resp where
  code : ℕ
  success : Bool
  message : String
deriving DecidableEq

/-- Payment object returned by the gateway lookup razorpay.payments.fetch. -/
structure RzpPayment where
  order_id : String
  status : String
deriving DecidableEq

/-- Pricing data shaped by the GET /api/pricing handler. -/
structure PricingView where
  basePrice : String
  discountPercentage : String
  finalPrice : String
deriving DecidableEq

/-- Body of POST /api/payment.  The identity fields arrive as strings; date is
the numeric client timestamp; an absent paymentId is the empty string (both
are falsy in the source). -/
structure PaymentReq where
  fullName : String
  phone : String
  email : String
  paymentId : String
  orderId : String
  amount : String
  status : String
  date : ℤ
deriving DecidableEq

/-- Next AUTOINCREMENT id for the pricing table. -/
def nextPricingId (l : List PricingRow) : ℕ :=
  l.foldr (fun p m => max p.id m) 0 + 1

/-- Next AUTOINCREMENT id for the payments table. -/
def nextPaymentId (l : List PaymentRow) : ℕ :=
  l.foldr (fun p m => max p.id m) 0 + 1

/-- initializeDatabase of src/server.js lines 58-66 (the data part: table
creation is schema-only).  Seeds one default pricing row, 199.00 at 85.0
percent, only when the COUNT(*) row check reports an empty table. -/
def initializeDatabase (now : ℤ) (db : DB) : DB :=
  if db.pricing.length = 0 then
    { db with pricing := db.pricing ++ [⟨nextPricingId db.pricing, ⟨199, 1⟩, ⟨85, 1⟩, now⟩] }
  else db

/-- GET /api/pricing (src/server.js lines 85-107): reads the first pricing row
and shapes basePrice, discountPercentage and the recomputed finalPrice. -/
def getPricing (db : DB) : Resp × Option PricingView :=
  match db.pricing.head? with
  | none => (⟨404, false, "No pricing data found."⟩, none)
  | some p =>
    (⟨200, true, ""⟩,
     some ⟨jsToFixed2 p.basePrice, jsToFixed1 p.discountPercentage,
           jsToFixed2 (JsNum.mul p.basePrice (JsNum.sub ⟨1, 1⟩ (JsNum.div p.discountPercentage ⟨100, 1⟩)))⟩)

/-- POST /api/pricing (src/server.js lines 110-153): truthiness presence
check, parseFloat range validation, then UPDATE of the row with id 1. -/
def updatePricing (now : ℤ) (db : DB) (basePrice discountPercentage : JsValue) : Resp × DB :=
  if !(jsTruthy basePrice) || !(jsTruthy discountPercentage) then
    (⟨400, false, "basePrice and discountPercentage are required."⟩, db)
  else
    match jsParseFloatV basePrice with
    | none => (⟨400, false, "basePrice must be a positive number."⟩, db)
    | some b =>
      if JsNum.le b ⟨0, 1⟩ then
        (⟨400, false, "basePrice must be a positive number."⟩, db)
      else
        match jsParseFloatV discountPercentage with
        | none => (⟨400, false, "discountPercentage must be between 0 and 100."⟩, db)
        | some d =>
          if JsNum.lt d ⟨0, 1⟩ ∨ JsNum.lt ⟨100, 1⟩ d then
            (⟨400, false, "discountPercentage must be between 0 and 100."⟩, db)
          else
            if db.pricing.countP (fun p => p.id == 1) = 0 then
              (⟨404, false, "No pricing record found to update."⟩, db)
            else
              (⟨200, true, "Pricing updated successfully."⟩,
               { db with pricing := db.pricing.map (fun p =>
                   if p.id = 1 then ⟨p.id, b, d, now⟩ else p) })

/-- Truthiness test of the required-field guard of src/server.js line 186
(paymentId is deliberately absent from it). -/
def missingFields (r : PaymentReq) : Bool :=
  r.fullName == "" || r.phone == "" || r.email == "" || r.amount == "" ||
  r.status == "" || r.date == 0 || r.orderId == ""

set_option linter.unusedVariables false in
/-- POST /api/payment (src/server.js lines 182-260).  hm is the HMAC with the
gateway secret, fetchP the gateway payment lookup; an Except.error models the
lookup throwing.  Every early return leaves the DB untouched; only the final
branch executes the INSERT, which stores the sanitized identity fields, the
raw amount and status, and the pricing snapshot.  The generatedSignature
binding mirrors the signature the source computes and then never uses. -/
def submitPayment (hm : String → String) (fetchP : String → Except Unit RzpPayment)
    (db : DB) (r : PaymentReq) : Resp × DB :=
  if missingFields r then (⟨400, false, "Missing required fields."⟩, db)
  else
    let sFullName := sanitizeString (JsValue.str r.fullName)
    let sPhone := sanitizeString (JsValue.str r.phone)
    let sEmail := sanitizeString (JsValue.str r.email)
    let sPaymentId := if r.paymentId == "" then "" else sanitizeString (JsValue.str r.paymentId)
    let sOrderId := sanitizeString (JsValue.str r.orderId)
    if !(phoneTest sPhone) then (⟨400, false, "Phone number must be 10 digits."⟩, db)
    else if !(emailTest sEmail) then (⟨400, false, "Invalid email format."⟩, db)
    else if !(validStatus r.status) then
      (⟨400, false, "Invalid status. Must be pending, success, or failed."⟩, db)
    else
      match db.pricing.head? with
      | none => (⟨400, false, "No pricing data available."⟩, db)
      | some pr =>
        let expectedFinalPrice :=
          jsToFixed2 (JsNum.mul pr.basePrice (JsNum.sub ⟨1, 1⟩ (JsNum.div pr.discountPercentage ⟨100, 1⟩)))
        if fmtAmount2 (jsParseFloat r.amount) != expectedFinalPrice then
          (⟨400, false, "Invalid amount. Expected " ++ expectedFinalPrice ++ ", received " ++ r.amount ++ "."⟩, db)
        else
          let gate : Option Resp :=
            if !(r.paymentId == "") && jsToLower r.status == "success" then
              match fetchP r.paymentId with
              | Except.error _ => some ⟨400, false, "Payment verification failed."⟩
              | Except.ok payment =>
                if payment.order_id != r.orderId || payment.status != "captured" then
                  some ⟨400, false, "Invalid payment or order ID."⟩
                else
                  let generatedSignature := hm (r.orderId ++ "|" ++ r.paymentId)
                  none
            else none
          match gate with
          | some resp => (resp, db)
          | none =>
            (⟨200, true, "Payment saved."⟩,
             ⟨db.pricing,
              db.payments ++ [⟨nextPaymentId db.payments, sFullName, sPhone, sEmail,
                sPaymentId, sOrderId, r.amount, pr.basePrice, pr.discountPercentage,
                r.status, r.date⟩]⟩)

/-- PATCH /api/payment/:id (src/server.js lines 263-293): status validation,
then UPDATE of the status column, lowercased, on every row matching the id;
404 when the UPDATE touches no row. -/
def updateStatus (db : DB) (id : ℕ) (status : String) : Resp × DB :=
  if status == "" then (⟨400, false, "Status is required."⟩, db)
  else if !(validStatus status) then
    (⟨400, false, "Invalid status. Must be pending, success, or failed."⟩, db)
  else
    if db.payments.countP (fun p => p.id == id) = 0 then
      (⟨404, false, "Payment record not found."⟩, db)
    else
      (⟨200, true, "Payment status updated."⟩,
       ⟨db.pricing,
        db.payments.map (fun p =>
          if p.id = id then
            ⟨p.id, p.fullName, p.phone, p.email, p.paymentId, p.orderId, p.amount,
             p.basePrice, p.discountPercentage, jsToLower status, p.date⟩
          else p)⟩)

/-- Modelled from the spec: the ORDER BY date DESC of the SELECT in
src/server.js line 298 is executed by the external relational store, which is
outside src; per spec section 8 ties are broken by insertion order, so the
sort is modelled as a stable insertion sort on the date key, descending. -/
def insertByDateDesc (p : PaymentRow) : List PaymentRow → List PaymentRow
  | [] => [p]
  | q :: qs => if q.date ≤ p.date then p :: q :: qs else q :: insertByDateDesc p qs

/-- Stable descending sort on date, the model of ORDER BY date DESC. -/
def sortByDateDesc : List PaymentRow → List PaymentRow
  | [] => []
  | p :: ps => insertByDateDesc p (sortByDateDesc ps)

/-- GET /api/payments (src/server.js lines 296-304): full scan of the
payments table ordered by date descending; no filter, no pagination. -/
def listPayments (db : DB) : List PaymentRow :=
  sortByDateDesc db.payments

/-- Fixture: an HMAC function whose output is never consulted. -/
def hm0 : String → String := fun _ => ""

/-- Fixture: a gateway whose lookup always throws. -/
def fp0 : String → Except Unit RzpPayment := fun _ => Except.error ()

/-- Fixture: a gateway reporting a captured payment for a different order. -/
def fpWrongOrder : String → Except Unit RzpPayment :=
  fun _ => Except.ok ⟨"otherOrder", "captured"⟩

/-- Fixture: the store right after seeding: one pricing row, no payments. -/
def db0 : DB := ⟨[⟨1, ⟨199, 1⟩, ⟨85, 1⟩, 0⟩], []⟩

/-- Fixture: the empty store. -/
def dbEmpty : DB := ⟨[], []⟩

/-- Fixture: a well-formed pending submission matching the seeded price. -/
def req0 : PaymentReq := ⟨"John", "1234567890", "a@b.co", "", "order1", "29.85", "pending", 5⟩

/-- Fixture: same submission with a mismatched amount. -/
def reqAmountBad : PaymentReq := ⟨"John", "1234567890", "a@b.co", "", "order1", "30.00", "pending", 5⟩

/-- Fixture: a claimed successful gateway payment. -/
def reqPay : PaymentReq := ⟨"John", "1234567890", "a@b.co", "pay1", "order1", "29.85", "success", 5⟩

/-- Fixture: a valid submission whose status is capitalized. -/
def reqUpper : PaymentReq := ⟨"John", "1234567890", "a@b.co", "", "order1", "29.85", "Success", 5⟩

/-- Fixture: a submission with a five-digit phone. -/
def reqBadPhone : PaymentReq := ⟨"John", "12345", "a@b.co", "", "order1", "29.85", "pending", 5⟩

/-- Fixture: a submission with a hyphenated phone. -/
def reqDashPhone : PaymentReq := ⟨"John", "123-456-7890", "a@b.co", "", "order1", "29.85", "pending", 5⟩

/-- Fixture: a stored payment row. -/
def pay1 : PaymentRow := ⟨1, "a", "b", "c", "", "o", "29.85", ⟨199, 1⟩, ⟨85, 1⟩, "pending", 5⟩

/-- Fixture: a store holding exactly the payment row pay1. -/
def db1 : DB := ⟨[], [pay1]⟩

/-- Fixture: the row the model inserts for reqUpper on db0. -/
def rowUpper : PaymentRow :=
  ⟨1, "John", "1234567890", "a@b.co", "", "order1", "29.85", ⟨199, 1⟩, ⟨85, 1⟩, "Success", 5⟩

/-- Fixture: the pricing row of db0. -/
def pr0 : PricingRow := ⟨1, ⟨199, 1⟩, ⟨85, 1⟩, 0⟩

lemma allowed_not_ws (c : Char) (h : allowedChar c = true) : jsWhitespace c = false := by
  by_contra hw
  rw [Bool.not_eq_false] at hw
  simp only [jsWhitespace, Bool.or_eq_true, beq_iff_eq] at hw
  rcases hw with ((((((h1 | h1) | h1) | h1) | h1) | h1) | h1) | h1 <;> subst h1 <;>
    exact absurd h (by decide)

lemma dropWhile_eq_self_of_all {p : Char → Bool} (l : List Char)
    (h : ∀ c ∈ l, p c = false) : l.dropWhile p = l := by
  cases l with
  | nil => rfl
  | cons c cs => rw [List.dropWhile_cons, h c (List.mem_cons_self c cs)]; simp

lemma jsTrim_of_all_not_ws (l : List Char) (h : ∀ c ∈ l, jsWhitespace c = false) :
    jsTrim l = l := by
  unfold jsTrim
  rw [dropWhile_eq_self_of_all l h,
    dropWhile_eq_self_of_all l.reverse (fun c hc => h c (List.mem_reverse.mp hc)),
    List.reverse_reverse]

lemma filter_allowed_no_ws (l : List Char) :
    ∀ c ∈ l.filter allowedChar, jsWhitespace c = false :=
  fun c hc => allowed_not_ws c (List.mem_filter.mp hc).2

lemma jsTrim_sublist (l : List Char) : (jsTrim l).Sublist l := by
  unfold jsTrim
  have h1 : (l.dropWhile jsWhitespace).Sublist l :=
    (List.dropWhile_suffix jsWhitespace).sublist
  have h2 : ((l.dropWhile jsWhitespace).reverse.dropWhile jsWhitespace).Sublist
      (l.dropWhile jsWhitespace).reverse :=
    (List.dropWhile_suffix jsWhitespace).sublist
  have h3 : ((l.dropWhile jsWhitespace).reverse.dropWhile jsWhitespace).reverse.Sublist
      (l.dropWhile jsWhitespace) := by
    apply List.reverse_sublist.mp
    rw [List.reverse_reverse]
    exact h2
  exact h3.trans h1

/-- C10: sanitize returns the empty string on every non-string input; on a
string it trims the ends and keeps exactly the characters of the class
[A-Za-z0-9@._-], so its output is an all-allowed sublist of the input and the
function is idempotent. -/
theorem sanitizeString_spec :
    (∀ q, sanitizeString (JsValue.num q) = "") ∧
    (∀ b, sanitizeString (JsValue.bool b) = "") ∧
    sanitizeString JsValue.nul = "" ∧
    sanitizeString JsValue.undef = "" ∧
    (∀ s : String, (sanitizeString (JsValue.str s)).data = (jsTrim s.data).filter allowedChar) ∧
    (∀ s : String, (sanitizeString (JsValue.str s)).data.all allowedChar = true) ∧
    (∀ s : String, (sanitizeString (JsValue.str s)).data.Sublist s.data) ∧
    (∀ v : JsValue, sanitizeString (JsValue.str (sanitizeString v)) = sanitizeString v) := by
  refine ⟨fun q => rfl, fun b => rfl, rfl, rfl, fun s => rfl, ?_, ?_, ?_⟩
  · intro s
    rw [List.all_eq_true]
    intro c hc
    exact (List.mem_filter.mp hc).2
  · intro s
    exact (List.filter_sublist _).trans (jsTrim_sublist s.data)
  · intro v
    cases v with
    | str s =>
      show (⟨(jsTrim ((jsTrim s.data).filter allowedChar)).filter allowedChar⟩ : String) = _
      rw [jsTrim_of_all_not_ws _ (filter_allowed_no_ws (jsTrim s.data)),
        List.filter_eq_self.mpr (fun c hc => (List.mem_filter.mp hc).2)]
      rfl
    | num q => rfl
    | bool b => rfl
    | nul => rfl
    | undef => rfl

/-- C9: the cryptographic signature computed during gateway reconciliation is
never consulted, so two runs of submitPayment differing only in the HMAC
function (for example through a different gateway secret) produce the same
response and the same store. -/
theorem submitPayment_signature_independent (h1 h2 : String → String)
    (fetchP : String → Except Unit RzpPayment) (db : DB) (r : PaymentReq) :
    submitPayment h1 fetchP db r = submitPayment h2 fetchP db r := rfl

/-- C5: seeding is a no-op on a store that already has a pricing row, on the
empty store it inserts exactly one row with basePrice 199 and discount 85,
and running it twice equals running it once. -/
theorem initializeDatabase_idempotent (db : DB) (now now2 : ℤ) :
    (db.pricing ≠ [] → initializeDatabase now db = db) ∧
    (db.pricing = [] →
      (initializeDatabase now db).pricing.map (fun p => (p.basePrice, p.discountPercentage)) =
        [(⟨199, 1⟩, ⟨85, 1⟩)]) ∧
    initializeDatabase now2 (initializeDatabase now db) = initializeDatabase now db := by
  unfold initializeDatabase
  rcases db with ⟨pricing, payments⟩
  cases pricing with
  | nil => simp
  | cons p ps => simp

theorem initializeDatabase_idempotent_witness :
    (initializeDatabase 5 dbEmpty).pricing.map (fun p => (p.basePrice, p.discountPercentage)) =
      [(⟨199, 1⟩, ⟨85, 1⟩)] ∧
    initializeDatabase 7 (initializeDatabase 5 dbEmpty) = initializeDatabase 5 dbEmpty ∧
    initializeDatabase 7 db0 = db0 :=
  ⟨(initializeDatabase_idempotent dbEmpty 5 7).2.1 rfl,
   (initializeDatabase_idempotent dbEmpty 5 7).2.2,
   (initializeDatabase_idempotent db0 7 7).1 (by decide)⟩

/-- C3, failing input: the source guards the pricing update with a JS
truthiness check, so the number 0 for discountPercentage is rejected as
missing even though the range check right after it (and the spec) accepts
the whole closed interval from 0 to 100; the same value passed as the
string "0" is truthy, passes, and yields exactly the final price the claim
predicts, isolating the truthiness guard as the slip. -/
theorem updatePricing_zero_discount_bug :
    updatePricing 7 db0 (JsValue.num ⟨100, 1⟩) (JsValue.num ⟨0, 1⟩) =
      (⟨400, false, "basePrice and discountPercentage are required."⟩, db0) ∧
    (updatePricing 7 db0 (JsValue.str "100") (JsValue.str "0")).1 =
      ⟨200, true, "Pricing updated successfully."⟩ ∧
    getPricing (updatePricing 7 db0 (JsValue.str "100") (JsValue.str "0")).2 =
      (⟨200, true, ""⟩, some ⟨"100.00", "0.0", "100.00"⟩) := by decide

/-- C1: when a submission passes the format validations but its amount,
2-decimal formatted, differs from the 2-decimal formatted server price, the
handler answers 400 with a message carrying both the expected and the
received value, and the store is returned unchanged. -/
theorem submitPayment_amount_mismatch (hm : String → String)
    (fetchP : String → Except Unit RzpPayment) (db : DB) (r : PaymentReq) (pr : PricingRow)
    (hmiss : missingFields r = false)
    (hph : phoneTest (sanitizeString (JsValue.str r.phone)) = true)
    (hem : emailTest (sanitizeString (JsValue.str r.email)) = true)
    (hst : validStatus r.status = true)
    (hpr : db.pricing.head? = some pr)
    (hne : (fmtAmount2 (jsParseFloat r.amount) !=
        jsToFixed2 (JsNum.mul pr.basePrice (JsNum.sub ⟨1, 1⟩ (JsNum.div pr.discountPercentage ⟨100, 1⟩)))) = true) :
    submitPayment hm fetchP db r =
      (⟨400, false, "Invalid amount. Expected " ++
          jsToFixed2 (JsNum.mul pr.basePrice (JsNum.sub ⟨1, 1⟩ (JsNum.div pr.discountPercentage ⟨100, 1⟩))) ++
          ", received " ++ r.amount ++ "."⟩, db) ∧
    (jsToFixed2 (JsNum.mul pr.basePrice (JsNum.sub ⟨1, 1⟩ (JsNum.div pr.discountPercentage ⟨100, 1⟩)))).data <:+:
      (submitPayment hm fetchP db r).1.message.data ∧
    r.amount.data <:+: (submitPayment hm fetchP db r).1.message.data := by
  have he : submitPayment hm fetchP db r =
      (⟨400, false, "Invalid amount. Expected " ++
          jsToFixed2 (JsNum.mul pr.basePrice (JsNum.sub ⟨1, 1⟩ (JsNum.div pr.discountPercentage ⟨100, 1⟩))) ++
          ", received " ++ r.amount ++ "."⟩, db) := by
    unfold submitPayment
    simp [hmiss, hph, hem, hst, hpr, hne]
  refine ⟨he, ?_, ?_⟩
  · rw [he]
    exact ⟨"Invalid amount. Expected ".data, (", received " ++ r.amount ++ ".").data,
      by simp [String.data_append, List.append_assoc]⟩
  · rw [he]
    exact ⟨("Invalid amount. Expected " ++
        jsToFixed2 (JsNum.mul pr.basePrice (JsNum.sub ⟨1, 1⟩ (JsNum.div pr.discountPercentage ⟨100, 1⟩))) ++
        ", received ").data, ".".data,
      by simp [String.data_append, List.append_assoc]⟩

theorem submitPayment_amount_mismatch_witness :
    submitPayment hm0 fp0 db0 reqAmountBad =
      (⟨400, false, "Invalid amount. Expected 29.85, received 30.00."⟩, db0) := by
  have h := (submitPayment_amount_mismatch hm0 fp0 db0 reqAmountBad pr0
    (by decide) (by decide) (by decide) (by decide) (by decide) (by decide)).1
  rw [h]
  decide

/-- C6: with a status accepted by the case-insensitive validation, the PATCH
handler answers 404 and leaves the store untouched exactly when no payment
row carries the id, and otherwise updates precisely the status field of the
rows matching the id, lowercased, leaving every other field and every other
row unchanged. -/
theorem updateStatus_spec (db : DB) (id : ℕ) (st : String)
    (hv : validStatus st = true) :
    ((∀ p ∈ db.payments, p.id ≠ id) →
      updateStatus db id st = (⟨404, false, "Payment record not found."⟩, db)) ∧
    ((∃ p ∈ db.payments, p.id = id) →
      updateStatus db id st =
        (⟨200, true, "Payment status updated."⟩,
         ⟨db.pricing, db.payments.map (fun p =>
            if p.id = id then
              ⟨p.id, p.fullName, p.phone, p.email, p.paymentId, p.orderId, p.amount,
               p.basePrice, p.discountPercentage, jsToLower st, p.date⟩
            else p)⟩)) := by
  have hst : (st == "") = false := by
    rw [beq_eq_false_iff_ne]
    intro h
    subst h
    exact absurd hv (by decide)
  constructor
  · intro h
    have hc : db.payments.countP (fun p => p.id == id) = 0 :=
      List.countP_eq_zero.mpr (by intro a ha; simpa using h a ha)
    unfold updateStatus
    simp [hst, hv, hc]
  · rintro ⟨p, hp, hpid⟩
    have hc : ¬ db.payments.countP (fun p => p.id == id) = 0 := by
      intro h0
      exact absurd (by simpa using hpid) (List.countP_eq_zero.mp h0 p hp)
    unfold updateStatus
    simp [hst, hv, hc]

theorem updateStatus_spec_witness :
    updateStatus db1 2 "failed" = (⟨404, false, "Payment record not found."⟩, db1) ∧
    updateStatus db1 1 "Success" =
      (⟨200, true, "Payment status updated."⟩,
       ⟨db1.pricing, db1.payments.map (fun p =>
          if p.id = 1 then
            ⟨p.id, p.fullName, p.phone, p.email, p.paymentId, p.orderId, p.amount,
             p.basePrice, p.discountPercentage, jsToLower "Success", p.date⟩
          else p)⟩) :=
  ⟨(updateStatus_spec db1 2 "failed" (by decide)).1 (by decide),
   (updateStatus_spec db1 1 "Success" (by decide)).2 ⟨pay1, by decide, by decide⟩⟩

/-- C7, counterexample to the claim as stated: the sanitizer class keeps the
hyphen, so the input 123-456-7890 does not sanitize to 1234567890; it stays
12 characters long, fails the ten-digit test and the submission is rejected
with the phone message. -/
theorem phone_dashes_rejected_counterexample :
    sanitizeString (JsValue.str "123-456-7890") = "123-456-7890" ∧
    phoneTest (sanitizeString (JsValue.str "123-456-7890")) = false ∧
    submitPayment hm0 fp0 db0 reqDashPhone =
      (⟨400, false, "Phone number must be 10 digits."⟩, db0) := by decide

/-- C7, amended: phone validation accepts exactly the inputs whose sanitized
form is ten decimal digits; 12345 is rejected, 1234567890 passes, and
123-456-7890 is rejected because sanitization keeps hyphens; whenever the
sanitized phone fails the test, the submission is rejected with the phone
message and no write. -/
theorem phoneTest_spec :
    (∀ p : String, phoneTest (sanitizeString (JsValue.str p)) = true ↔
      ((sanitizeString (JsValue.str p)).data.length = 10 ∧
       ∀ c ∈ (sanitizeString (JsValue.str p)).data, c.isDigit = true)) ∧
    phoneTest (sanitizeString (JsValue.str "12345")) = false ∧
    phoneTest (sanitizeString (JsValue.str "1234567890")) = true ∧
    phoneTest (sanitizeString (JsValue.str "123-456-7890")) = false ∧
    (∀ (hm : String → String) (fetchP : String → Except Unit RzpPayment) (db : DB) (r : PaymentReq),
      missingFields r = false →
      phoneTest (sanitizeString (JsValue.str r.phone)) = false →
      submitPayment hm fetchP db r = (⟨400, false, "Phone number must be 10 digits."⟩, db)) := by
  refine ⟨?_, by decide, by decide, by decide, ?_⟩
  · intro p
    simp [phoneTest, List.all_eq_true]
  · intro hm fetchP db r hmiss hph
    unfold submitPayment
    simp [hmiss, hph]

theorem phoneTest_spec_witness :
    submitPayment hm0 fp0 db0 reqBadPhone =
      (⟨400, false, "Phone number must be 10 digits."⟩, db0) :=
  phoneTest_spec.2.2.2.2 hm0 fp0 db0 reqBadPhone (by decide) (by decide)

/-- C2, counterexample to the claim as stated: a submission with a paymentId,
status success and a gateway lookup reporting a different order id is indeed
rejected without a write, but the message of that branch is the
invalid-payment one, not the payment-verification-failed one the claim
names. -/
theorem verification_message_counterexample :
    submitPayment hm0 fpWrongOrder db0 reqPay =
      (⟨400, false, "Invalid payment or order ID."⟩, db0) ∧
    "Invalid payment or order ID." ≠ "Payment verification failed." := by decide

/-- C2, amended: when a verified-success submission reaches the gateway
reconciliation, a throwing lookup yields a 400 with the message Payment
verification failed, while a lookup returning a different order id or a
non-captured status yields a 400 with the message Invalid payment or order
ID; in every such case the store is returned unchanged. -/
theorem submitPayment_verification_spec (hm : String → String)
    (fetchP : String → Except Unit RzpPayment) (db : DB) (r : PaymentReq) (pr : PricingRow)
    (hmiss : missingFields r = false)
    (hph : phoneTest (sanitizeString (JsValue.str r.phone)) = true)
    (hem : emailTest (sanitizeString (JsValue.str r.email)) = true)
    (hst : validStatus r.status = true)
    (hpr : db.pricing.head? = some pr)
    (heq : (fmtAmount2 (jsParseFloat r.amount) !=
        jsToFixed2 (JsNum.mul pr.basePrice (JsNum.sub ⟨1, 1⟩ (JsNum.div pr.discountPercentage ⟨100, 1⟩)))) = false)
    (hpid : (r.paymentId == "") = false)
    (hsucc : (jsToLower r.status == "success") = true) :
    (∀ e : Unit, fetchP r.paymentId = Except.error e →
      submitPayment hm fetchP db r = (⟨400, false, "Payment verification failed."⟩, db)) ∧
    (∀ pay : RzpPayment, fetchP r.paymentId = Except.ok pay →
      (pay.order_id != r.orderId || pay.status != "captured") = true →
      submitPayment hm fetchP db r = (⟨400, false, "Invalid payment or order ID."⟩, db)) := by
  constructor
  · intro e he
    unfold submitPayment
    simp [hmiss, hph, hem, hst, hpr, heq, hpid, hsucc, he]
  · intro pay hp hbad
    unfold submitPayment
    simp [hmiss, hph, hem, hst, hpr, heq, hpid, hsucc, hp, hbad]

theorem submitPayment_verification_spec_witness :
    submitPayment hm0 fp0 db0 reqPay =
      (⟨400, false, "Payment verification failed."⟩, db0) :=
  (submitPayment_verification_spec hm0 fp0 db0 reqPay pr0
    (by decide) (by decide) (by decide) (by decide) (by decide) (by decide)
    (by decide) (by decide)).1 () rfl

/-- C4, counterexample to the claim as stated: a submission whose status is
the capitalized Success passes the case-insensitive validation, and the
INSERT stores that raw string, which is not one of the three lowercase enum
values. -/
theorem status_case_preserved_counterexample :
    (submitPayment hm0 fp0 db0 reqUpper).2.payments.map PaymentRow.status = ["Success"] ∧
    "Success" ∉ validStatuses := by decide

/-- C4, amended: the PATCH handler persists statuses lowercased into the
enum, while the submission INSERT persists the client status verbatim; such
a status always satisfies the case-insensitive membership (its lowercasing
is in the enum) but need not be lowercase itself.  Every row of the store
after either operation is either an old row or carries exactly the persisted
status described above. -/
theorem persisted_status_spec :
    (∀ (hm : String → String) (fetchP : String → Except Unit RzpPayment) (db : DB) (r : PaymentReq),
      ∀ p ∈ (submitPayment hm fetchP db r).2.payments,
        p ∈ db.payments ∨ (p.status = r.status ∧ jsToLower r.status ∈ validStatuses)) ∧
    (∀ (db : DB) (id : ℕ) (st : String),
      ∀ p ∈ (updateStatus db id st).2.payments,
        p ∈ db.payments ∨ (p.status = jsToLower st ∧ jsToLower st ∈ validStatuses)) := by
  constructor
  · intro hm fetchP db r p hp
    cases h1 : missingFields r with
    | true => simp [submitPayment, h1] at hp; exact Or.inl hp
    | false =>
      cases h2 : phoneTest (sanitizeString (JsValue.str r.phone)) with
      | false => simp [submitPayment, h1, h2] at hp; exact Or.inl hp
      | true =>
        cases h3 : emailTest (sanitizeString (JsValue.str r.email)) with
        | false => simp [submitPayment, h1, h2, h3] at hp; exact Or.inl hp
        | true =>
          cases h4 : validStatus r.status with
          | false => simp [submitPayment, h1, h2, h3, h4] at hp; exact Or.inl hp
          | true =>
            have hmem : jsToLower r.status ∈ validStatuses :=
              List.mem_of_elem_eq_true (by simpa [validStatus, List.contains] using h4)
            cases h5 : db.pricing.head? with
            | none => simp [submitPayment, h1, h2, h3, h4, h5] at hp; exact Or.inl hp
            | some pr =>
              cases h6 : (fmtAmount2 (jsParseFloat r.amount) !=
                  jsToFixed2 (JsNum.mul pr.basePrice (JsNum.sub ⟨1, 1⟩ (JsNum.div pr.discountPercentage ⟨100, 1⟩)))) with
              | true =>
                simp [submitPayment, h1, h2, h3, h4, h5, h6] at hp
                exact Or.inl hp
              | false =>
                cases h7 : (!(r.paymentId == "") && (jsToLower r.status == "success")) with
                | true =>
                  cases h8 : fetchP r.paymentId with
                  | error e =>
                    simp [submitPayment, h1, h2, h3, h4, h5, h6, h7, h8] at hp
                    exact Or.inl hp
                  | ok pay =>
                    cases h9 : (pay.order_id != r.orderId || pay.status != "captured") with
                    | true =>
                      simp [submitPayment, h1, h2, h3, h4, h5, h6, h7, h8, h9] at hp
                      exact Or.inl hp
                    | false =>
                      simp [submitPayment, h1, h2, h3, h4, h5, h6, h7, h8, h9] at hp
                      rcases hp with hold | hnew
                      · exact Or.inl hold
                      · rw [hnew]
                        exact Or.inr ⟨rfl, hmem⟩
                | false =>
                  simp [submitPayment, h1, h2, h3, h4, h5, h6, h7] at hp
                  rcases hp with hold | hnew
                  · exact Or.inl hold
                  · rw [hnew]
                    exact Or.inr ⟨rfl, hmem⟩
  · intro db id st p hp
    cases hs1 : (st == "") with
    | true => simp [updateStatus, hs1] at hp; exact Or.inl hp
    | false =>
      cases hs2 : validStatus st with
      | false => simp [updateStatus, hs1, hs2] at hp; exact Or.inl hp
      | true =>
        have hmem : jsToLower st ∈ validStatuses :=
          List.mem_of_elem_eq_true (by simpa [validStatus, List.contains] using hs2)
        by_cases hs3 : db.payments.countP (fun q => q.id == id) = 0
        · simp [updateStatus, hs1, hs2, hs3] at hp; exact Or.inl hp
        · simp [updateStatus, hs1, hs2, hs3] at hp
          rcases hp with ⟨a, ha, hae⟩
          by_cases hid : a.id = id
          · rw [if_pos hid] at hae
            rw [← hae]
            exact Or.inr ⟨rfl, hmem⟩
          · rw [if_neg hid] at hae
            rw [← hae]
            exact Or.inl ha

theorem persisted_status_spec_witness :
    rowUpper ∈ db0.payments ∨
      (rowUpper.status = reqUpper.status ∧ jsToLower reqUpper.status ∈ validStatuses) :=
  persisted_status_spec.1 hm0 fp0 db0 reqUpper rowUpper (by decide)

lemma insertByDateDesc_perm (p : PaymentRow) (l : List PaymentRow) :
    (insertByDateDesc p l).Perm (p :: l) := by
  induction l with
  | nil => exact List.Perm.refl _
  | cons q qs ih =>
    unfold insertByDateDesc
    split
    · exact List.Perm.refl _
    · exact (ih.cons q).trans (List.Perm.swap p q qs)

lemma sortByDateDesc_perm (l : List PaymentRow) : (sortByDateDesc l).Perm l := by
  induction l with
  | nil => exact List.Perm.refl _
  | cons p ps ih =>
    exact (insertByDateDesc_perm p (sortByDateDesc ps)).trans (ih.cons p)

lemma insertByDateDesc_sorted (p : PaymentRow) (l : List PaymentRow)
    (h : l.Pairwise (fun a b => b.date ≤ a.date)) :
    (insertByDateDesc p l).Pairwise (fun a b => b.date ≤ a.date) := by
  induction l with
  | nil => simp [insertByDateDesc]
  | cons q qs ih =>
    rw [List.pairwise_cons] at h
    unfold insertByDateDesc
    split
    next hle =>
      rw [List.pairwise_cons]
      refine ⟨?_, List.pairwise_cons.mpr h⟩
      intro x hx
      rcases List.mem_cons.mp hx with rfl | hxqs
      · exact hle
      · exact le_trans (h.1 x hxqs) hle
    next hgt =>
      rw [List.pairwise_cons]
      refine ⟨?_, ih h.2⟩
      intro x hx
      have hx2 : x ∈ p :: qs := (insertByDateDesc_perm p qs).mem_iff.mp hx
      rcases List.mem_cons.mp hx2 with rfl | hxqs
      · exact le_of_lt (lt_of_not_le hgt)
      · exact h.1 x hxqs

lemma sortByDateDesc_sorted (l : List PaymentRow) :
    (sortByDateDesc l).Pairwise (fun a b => b.date ≤ a.date) := by
  induction l with
  | nil => exact List.Pairwise.nil
  | cons p ps ih => exact insertByDateDesc_sorted p (sortByDateDesc ps) ih

lemma filter_insertByDateDesc (p : PaymentRow) (l : List PaymentRow) (d : ℤ) :
    (insertByDateDesc p l).filter (fun x => x.date == d) =
      if (p.date == d) = true then p :: l.filter (fun x => x.date == d)
      else l.filter (fun x => x.date == d) := by
  induction l with
  | nil =>
    unfold insertByDateDesc
    by_cases hpd : (p.date == d) = true <;> simp [List.filter_cons, hpd]
  | cons q qs ih =>
    unfold insertByDateDesc
    split
    next hle =>
      by_cases hpd : (p.date == d) = true <;> simp [List.filter_cons, hpd]
    next hgt =>
      rw [List.filter_cons, ih]
      by_cases hpd : (p.date == d) = true
      · have hqd : (q.date == d) = false := by
          rw [beq_eq_false_iff_ne]
          rw [beq_iff_eq] at hpd
          intro hq
          exact hgt (le_of_eq (hq.trans hpd.symm))
        simp [hpd, hqd, List.filter_cons]
      · simp [Bool.eq_false_iff.mpr hpd, List.filter_cons]

lemma filter_sortByDateDesc (l : List PaymentRow) (d : ℤ) :
    (sortByDateDesc l).filter (fun x => x.date == d) =
      l.filter (fun x => x.date == d) := by
  induction l with
  | nil => rfl
  | cons p ps ih =>
    show (insertByDateDesc p (sortByDateDesc ps)).filter _ = _
    rw [filter_insertByDateDesc, List.filter_cons, ih]

/-- C8: listPayments returns a permutation of the whole payments table, no
row filtered out, sorted by date descending; for every date the rows with
that date appear in exactly their insertion order, the stability the spec
promises for ties. -/
theorem listPayments_spec (db : DB) :
    (listPayments db).Perm db.payments ∧
    (listPayments db).Pairwise (fun a b => b.date ≤ a.date) ∧
    ∀ d : ℤ, (listPayments db).filter (fun p => p.date == d) =
      db.payments.filter (fun p => p.date == d) :=
  ⟨sortByDateDesc_perm db.payments, sortByDateDesc_sorted db.payments,
   fun d => filter_sortByDateDesc db.payments d⟩
